import Mathlib

/-
Verification development for the Windows `memmap` plugin
(volatility3/framework/plugins/windows/memmap.py).

The file embeds the plugin's two algorithmic parts as Lean functions:
`Memmap.coalesce` (the contiguous-run coalescing generator) and the
per-process extraction loop of `Memmap._generator` (region enumeration,
optional byte dumping, file-offset bookkeeping, error recovery), and proves
the documented properties about them.  External collaborators (translation
layers, process lists, file handles) are modelled by the data they supply:
a layer is its region list together with a read oracle, a file handle is
the list of bytes written to it.
-/

namespace Memmap

/-- One region descriptor as produced by a translation layer's `mapping`
primitive: the tuple `(offset, size, mapped_offset, mapped_size, map_layer)`
unpacked by both `coalesce` and `_generator`.  The layer is an abstract
type `α` with decidable equality. -/
structure RegionDescriptor (α : Type) where
  offset : Nat
  size : Nat
  mapped_offset : Nat
  mapped_size : Nat
  map_layer : α
deriving DecidableEq

/-- Loop of `Memmap.coalesce`.  The first argument is the stashed pending
run: `none` models the state where `stashed_offset` still holds the `None`
sentinel, `some s` the state after the stashed variables were assigned from
a descriptor (and possibly extended).  The break condition mirrors the
source line for line: virtual discontinuity
(`stashed_offset + stashed_size != offset`), backing discontinuity
(`stashed_mapped_offset + stashed_mapped_size != mapped_offset`), or layer
change (`stashed_map_layer != map_layer`); on a break the pending run is
yielded and the stash restarts at the incoming descriptor, otherwise only
the two sizes grow.  At the end of the input the pending run, if any, is
yielded.  (The source initialises a variable spelt `stashed_mapped_layer`
and compares one spelt `stashed_map_layer`; `pyCoalesce` below models that
raw evaluation and is proved to agree with this function.) -/
def coalesceAux {α : Type} [DecidableEq α] :
    Option (RegionDescriptor α) → List (RegionDescriptor α) → List (RegionDescriptor α)
  | none, [] => []
  | some s, [] => [s]
  | none, r :: rest => coalesceAux (some r) rest
  | some s, r :: rest =>
    if s.offset + s.size ≠ r.offset ∨ s.mapped_offset + s.mapped_size ≠ r.mapped_offset ∨
        s.map_layer ≠ r.map_layer then
      s :: coalesceAux (some r) rest
    else
      coalesceAux
        (some { s with size := s.size + r.size, mapped_size := s.mapped_size + r.mapped_size })
        rest

/-- `Memmap.coalesce` on a finite region stream: the loop started with every
stashed variable at its sentinel. -/
def coalesce {α : Type} [DecidableEq α] (l : List (RegionDescriptor α)) :
    List (RegionDescriptor α) :=
  coalesceAux none l

/-- Run-stream selection in `_generator`: `coalesce = self.coalesce` when the
`coalesce` option is set, `coalesce = lambda x: x` otherwise. -/
def selectRuns {α : Type} [DecidableEq α] (coalesceFlag : Bool)
    (l : List (RegionDescriptor α)) : List (RegionDescriptor α) :=
  if coalesceFlag then coalesce l else l

/-- The data carried by `exceptions.InvalidAddressException` as used by the
`except` clause of `_generator`: the invalid address and the layer name. -/
structure InvalidAddressException where
  invalid_address : Nat
  layer_name : String
deriving DecidableEq

/-- A materialised process translation layer, modelled by what `_generator`
consumes of it: its name, the region list returned by
`mapping(0x0, maximum_address, ignore_errors = True)`, and a read oracle
for `read(offset, size, pad = True)` — `none` models the call raising
`InvalidAddressException`, `some data` the returned bytes. -/
structure ProcLayer (α : Type) where
  name : String
  mapping : List (RegionDescriptor α)
  read : Nat → Nat → Option (List Nat)

/-- A process descriptor, modelled by what `_generator` consumes of it: its
`UniqueProcessId` and the outcome of `add_process_layer()` /
`context.layers[...]` — `Except.error e` models the lookup raising
`InvalidAddressException e`. -/
structure ProcInput (α : Type) where
  pid : Nat
  add_process_layer : Except InvalidAddressException (ProcLayer α)

/-- One row yielded by `_generator` (the fields inside
`yield (0, (...))`, in order): virtual offset, mapped offset, mapped size,
offset in file, and the "File output" status string. -/
structure OutputRow where
  offset : Nat
  mapped_offset : Nat
  mapped_size : Nat
  file_offset : Nat
  file_output : String
deriving DecidableEq

/-- Output of the per-process run loop: the yielded rows, the bytes written
to the file handle (in order), and the debug log lines emitted. -/
structure LoopOut where
  rows : List OutputRow
  data : List Nat
  log : List String
deriving DecidableEq

/-- Accumulated output of `_generator` over several processes: all rows in
order, all debug log lines, and the files created (name paired with the
bytes written to it). -/
structure GenOutput where
  rows : List OutputRow
  log : List String
  files : List (String × List Nat)
deriving DecidableEq

/-- The debug line `"Process {}: invalid address {} in layer {}"` logged when
resolving a process layer raises. -/
def debugInvalidProcess (pid : Nat) (e : InvalidAddressException) : String :=
  "Process " ++ toString pid ++ ": invalid address " ++ toString e.invalid_address ++
    " in layer " ++ e.layer_name

/-- The debug line `"Unable to write {}'s address {} to {}"` logged when a
padded read raises during dumping. -/
def debugWriteFailure (proc_layer_name : String) (offset : Nat) (fname : String) : String :=
  "Unable to write " ++ proc_layer_name ++ "'s address " ++ toString offset ++ " to " ++ fname

/-- One iteration's dump attempt: with `dump` set, try
`read(offset, size, pad = True)`; on success the bytes are written and the
status is the handle's preferred filename, on `InvalidAddressException`
nothing is written, the status becomes `"Error outputting to file"` and a
debug line is logged.  With `dump` unset the status stays `"Disabled"` and
nothing is read or written.  Returns (status, bytes written, log lines). -/
def dumpStep {α : Type} (dump : Bool) (read : Nat → Nat → Option (List Nat))
    (proc_layer_name fname : String) (r : RegionDescriptor α) :
    String × List Nat × List String :=
  if dump then
    match read r.offset r.size with
    | some data => (fname, data, [])
    | none =>
        ("Error outputting to file", [], [debugWriteFailure proc_layer_name r.offset fname])
  else ("Disabled", [], [])

/-- The `for mapval in coalesce(...)` loop of `_generator` for one process:
starting from the given `file_offset`, each run yields a row
`(offset, mapped_offset, mapped_size, file_offset, file_output)` and then
`file_offset` advances by `mapped_size` unconditionally. -/
def runLoop {α : Type} (dump : Bool) (read : Nat → Nat → Option (List Nat))
    (proc_layer_name fname : String) :
    Nat → List (RegionDescriptor α) → LoopOut
  | _, [] => ⟨[], [], []⟩
  | file_offset, r :: rest =>
    let step := dumpStep dump read proc_layer_name fname r
    let tail := runLoop dump read proc_layer_name fname (file_offset + r.mapped_size) rest
    ⟨⟨r.offset, r.mapped_offset, r.mapped_size, file_offset, step.1⟩ :: tail.rows,
      step.2.1 ++ tail.data, step.2.2 ++ tail.log⟩

/-- The body of `_generator` for one process.  A failing
`add_process_layer()` is caught: it logs one debug line and contributes no
rows and no files (`continue`).  Otherwise the region stream is routed
through `selectRuns` and driven by `runLoop` with `file_offset` starting at
0; a file named `pid.{pid}.dmp` holding the written bytes exists exactly
when `dump` is set (with `dump` unset the handle is a fresh
`contextlib.ExitStack()`, so no file resource is created). -/
def processOne {α : Type} [DecidableEq α] (coalesceFlag dump : Bool)
    (proc : ProcInput α) : GenOutput :=
  match proc.add_process_layer with
  | .error excp => ⟨[], [debugInvalidProcess proc.pid excp], []⟩
  | .ok layer =>
    let fname := "pid." ++ toString proc.pid ++ ".dmp"
    let out := runLoop dump layer.read layer.name fname 0 (selectRuns coalesceFlag layer.mapping)
    ⟨out.rows, out.log, if dump then [(fname, out.data)] else []⟩

/-- `_generator` over a process list: the per-process outputs concatenated
in process order. -/
def generator {α : Type} [DecidableEq α] (coalesceFlag dump : Bool) :
    List (ProcInput α) → GenOutput
  | [] => ⟨[], [], []⟩
  | p :: ps =>
    let a := processOne coalesceFlag dump p
    let b := generator coalesceFlag dump ps
    ⟨a.rows ++ b.rows, a.log ++ b.log, a.files ++ b.files⟩

/-! Raw-evaluation model of `coalesce`, faithful to the source's variable
names: the initialiser assigns `None` to `stashed_offset`,
`stashed_mapped_offset`, `stashed_size`, `stashed_mapped_size` and
`stashed_mapped_layer`, while the name read by the break condition and the
yields is `stashed_map_layer`, which is only ever assigned inside the
new-run branch.  Reading `stashed_map_layer` before that assignment would
raise `NameError`; arithmetic on a variable still holding `None` would
raise `TypeError`.  `pyCoalesce` returns `Except.error` in those cases, so
proving it total shows no such evaluation is reachable. -/

/-- Python-level variable state of the `coalesce` loop.  For the five
initialised variables, `none` is the value `None`; for `stashed_map_layer`,
`none` means the name is still unbound. -/
structure PyState (α : Type) where
  stashed_offset : Option Nat
  stashed_mapped_offset : Option Nat
  stashed_size : Option Nat
  stashed_mapped_size : Option Nat
  stashed_mapped_layer : Option α
  stashed_map_layer : Option α

/-- The state after `... = None` initialisation, `stashed_map_layer`
unbound. -/
def pyInit {α : Type} : PyState α :=
  ⟨none, none, none, none, none, none⟩

/-- The state corresponding to a stashed run `s`: every stashed variable
assigned from a descriptor (member `stashed_mapped_layer` keeps its initial
`None`, as the source never reassigns that spelling). -/
def pyOf {α : Type} (s : RegionDescriptor α) : PyState α :=
  ⟨some s.offset, some s.mapped_offset, some s.size, some s.mapped_size, none, some s.map_layer⟩

/-- The Python state corresponding to an abstract stash: the initial state
for `none`, the assigned state for `some s`. -/
def pyStash {α : Type} : Option (RegionDescriptor α) → PyState α
  | none => pyInit
  | some s => pyOf s

/-- Left-to-right, short-circuit evaluation of the source's break condition
`stashed_offset is None or (stashed_offset + stashed_size != offset) or
(stashed_mapped_offset + stashed_mapped_size != mapped_offset) or
(stashed_map_layer != map_layer)`, raising `TypeError` on `None`
arithmetic and `NameError` on the unbound name. -/
def pyCond {α : Type} [DecidableEq α] (st : PyState α) (r : RegionDescriptor α) :
    Except String Bool :=
  match st.stashed_offset with
  | none => .ok true
  | some so =>
    match st.stashed_size with
    | none => .error "TypeError: unsupported operand"
    | some ss =>
      if so + ss ≠ r.offset then .ok true
      else
        match st.stashed_mapped_offset, st.stashed_mapped_size with
        | some smo, some sms =>
          if smo + sms ≠ r.mapped_offset then .ok true
          else
            match st.stashed_map_layer with
            | none => .error "NameError: stashed_map_layer is not defined"
            | some sml => .ok (decide (sml ≠ r.map_layer))
        | _, _ => .error "TypeError: unsupported operand"

/-- Evaluation of a `yield stashed_offset, stashed_size,
stashed_mapped_offset, stashed_mapped_size, stashed_map_layer` statement:
raises `NameError` if `stashed_map_layer` is unbound, and cannot build a
descriptor if a numeric variable still holds `None`. -/
def pyYieldStash {α : Type} (st : PyState α) : Except String (RegionDescriptor α) :=
  match st.stashed_offset, st.stashed_size, st.stashed_mapped_offset, st.stashed_mapped_size with
  | some so, some ss, some smo, some sms =>
    match st.stashed_map_layer with
    | none => .error "NameError: stashed_map_layer is not defined"
    | some sml => .ok ⟨so, ss, smo, sms, sml⟩
  | _, _, _, _ => .error "TypeError: None in yielded tuple"

/-- The `coalesce` loop under raw Python evaluation: each iteration
evaluates the break condition, on `True` yields the pending run when
`stashed_offset` is not `None` and restarts the stash from the descriptor,
on `False` grows the two sizes; after the loop the pending run, if any, is
yielded. -/
def pyCoalesceAux {α : Type} [DecidableEq α] (st : PyState α) :
    List (RegionDescriptor α) → Except String (List (RegionDescriptor α))
  | [] =>
    match st.stashed_offset with
    | none => .ok []
    | some _ => do
      let s ← pyYieldStash st
      pure [s]
  | r :: rest => do
    let c ← pyCond st r
    if c then
      let emitted ← (match st.stashed_offset with
        | none => pure []
        | some _ => do
          let s ← pyYieldStash st
          pure [s])
      let rec_result ← pyCoalesceAux
        ⟨some r.offset, some r.mapped_offset, some r.size, some r.mapped_size,
          st.stashed_mapped_layer, some r.map_layer⟩ rest
      pure (emitted ++ rec_result)
    else
      match st.stashed_size, st.stashed_mapped_size with
      | some ss, some sms =>
        pyCoalesceAux
          { st with stashed_size := some (ss + r.size),
                    stashed_mapped_size := some (sms + r.mapped_size) } rest
      | _, _ => .error "TypeError: unsupported operand"

/-- `Memmap.coalesce` under raw Python evaluation, from the initial
state. -/
def pyCoalesce {α : Type} [DecidableEq α] (l : List (RegionDescriptor α)) :
    Except String (List (RegionDescriptor α)) :=
  pyCoalesceAux pyInit l

/-! Coverage and totals used to state preservation properties. -/

/-- The virtual offsets covered by a region list, in stream order: each
descriptor contributes `offset, offset + 1, …, offset + size - 1`. -/
def coveredV {α : Type} (l : List (RegionDescriptor α)) : List Nat :=
  l.flatMap (fun r => (List.range r.size).map (fun i => r.offset + i))

/-- The backing offsets covered by a region list, in stream order. -/
def coveredB {α : Type} (l : List (RegionDescriptor α)) : List Nat :=
  l.flatMap (fun r => (List.range r.mapped_size).map (fun i => r.mapped_offset + i))

/-- Total virtual size of a region list. -/
def totalV {α : Type} (l : List (RegionDescriptor α)) : Nat :=
  (l.map (fun r => r.size)).sum

/-- Total backing (mapped) size of a region list. -/
def totalB {α : Type} (l : List (RegionDescriptor α)) : Nat :=
  (l.map (fun r => r.mapped_size)).sum

/-- Sum of mapped sizes, the quantity by which `file_offset` advances. -/
def sumMapped {α : Type} (l : List (RegionDescriptor α)) : Nat :=
  (l.map (fun r => r.mapped_size)).sum

/-! Concrete fixtures used to instantiate the theorems. -/

/-- A read oracle honouring the pad contract: always succeeds and returns
exactly the requested number of bytes. -/
def exReadOk : Nat → Nat → Option (List Nat) :=
  fun _ size => some (List.replicate size 0)

/-- A read oracle that raises `InvalidAddressException` at offset 0 and
otherwise returns the requested number of bytes. -/
def exReadFail : Nat → Nat → Option (List Nat) :=
  fun offset size => if offset = 0 then none else some (List.replicate size 0)

/-- First fixture region: one page at virtual 0 backed at 0 (sizes 1 for
fast evaluation). -/
def exR1 : RegionDescriptor Nat := ⟨0, 1, 0, 1, 0⟩

/-- Second fixture region, contiguous with `exR1` on the same layer. -/
def exR2 : RegionDescriptor Nat := ⟨1, 1, 1, 1, 0⟩

/-- A fixture process whose layer materialises, with regions `exR1, exR2`
and the always-succeeding read oracle. -/
def exProcOk (pid : Nat) : ProcInput Nat :=
  ⟨pid, .ok ⟨"layer" ++ toString pid, [exR1, exR2], exReadOk⟩⟩

/-- A fixture process whose `add_process_layer()` raises
`InvalidAddressException 291 "lay2"`. -/
def exProcBad : ProcInput Nat :=
  ⟨2, .error ⟨291, "lay2"⟩⟩

/-! Helper lemmas about `coalesce`. -/

theorem range_map_add (off s1 s2 : Nat) :
    (List.range (s1 + s2)).map (fun i => off + i) =
      (List.range s1).map (fun i => off + i) ++
        (List.range s2).map (fun i => off + s1 + i) := by
  rw [List.range_add, List.map_append, List.map_map]
  refine congrArg _ (List.map_congr_left ?_)
  intro i _
  simp [Function.comp, Nat.add_assoc]

/-- Any per-region list-valued measure that is additive across a merge is
preserved through the coalescing loop. -/
theorem coalesceAux_flatMap {α : Type} [DecidableEq α] {β : Type}
    (f : RegionDescriptor α → List β)
    (hf : ∀ s r : RegionDescriptor α, s.offset + s.size = r.offset →
      s.mapped_offset + s.mapped_size = r.mapped_offset → s.map_layer = r.map_layer →
      f { s with size := s.size + r.size, mapped_size := s.mapped_size + r.mapped_size } =
        f s ++ f r) :
    ∀ (l : List (RegionDescriptor α)) (st : Option (RegionDescriptor α)),
      (coalesceAux st l).flatMap f = st.toList.flatMap f ++ l.flatMap f := by
  intro l
  induction l with
  | nil => intro st; cases st <;> simp [coalesceAux]
  | cons r rest ih =>
    intro st
    cases st with
    | none => simp [coalesceAux, ih (some r)]
    | some s =>
      by_cases hb : s.offset + s.size ≠ r.offset ∨
          s.mapped_offset + s.mapped_size ≠ r.mapped_offset ∨ s.map_layer ≠ r.map_layer
      · simp [coalesceAux, hb, ih (some r)]
      · push_neg at hb
        obtain ⟨h1, h2, h3⟩ := hb
        have hcond : ¬(s.offset + s.size ≠ r.offset ∨
            s.mapped_offset + s.mapped_size ≠ r.mapped_offset ∨ s.map_layer ≠ r.map_layer) := by
          push_neg
          exact ⟨h1, h2, h3⟩
        rw [coalesceAux, if_neg hcond,
          ih (some { s with size := s.size + r.size, mapped_size := s.mapped_size + r.mapped_size })]
        simp [hf s r h1 h2 h3]

theorem coalesce_coveredV {α : Type} [DecidableEq α] (l : List (RegionDescriptor α)) :
    coveredV (coalesce l) = coveredV l := by
  have h := coalesceAux_flatMap (fun r => (List.range r.size).map (fun i => r.offset + i))
    (fun s r h1 _ _ => by simpa [h1] using range_map_add s.offset s.size r.size) l none
  simpa [coalesce, coveredV] using h

theorem coalesce_coveredB {α : Type} [DecidableEq α] (l : List (RegionDescriptor α)) :
    coveredB (coalesce l) = coveredB l := by
  have h := coalesceAux_flatMap
    (fun r => (List.range r.mapped_size).map (fun i => r.mapped_offset + i))
    (fun s r _ h2 _ => by simpa [h2] using range_map_add s.mapped_offset s.mapped_size r.mapped_size)
    l none
  simpa [coalesce, coveredB] using h

theorem coveredV_length {α : Type} (l : List (RegionDescriptor α)) :
    (coveredV l).length = totalV l := by
  induction l with
  | nil => simp [coveredV, totalV]
  | cons r rest ih => simpa [coveredV, totalV] using congrArg (r.size + ·) ih

theorem coveredB_length {α : Type} (l : List (RegionDescriptor α)) :
    (coveredB l).length = totalB l := by
  induction l with
  | nil => simp [coveredB, totalB]
  | cons r rest ih => simpa [coveredB, totalB] using congrArg (r.mapped_size + ·) ih

/-- C1: for every finite descriptor sequence in ascending virtual-offset
order, the runs produced by `coalesce` cover exactly the same virtual
offsets and the same backing offsets as the input, in the same stream
order (so nothing is dropped, split, duplicated, and no gap appears or
disappears), and the totals of the virtual and of the backing sizes are
preserved. -/
theorem coalesce_coverage_preservation {α : Type} [DecidableEq α]
    (l : List (RegionDescriptor α))
    (hsorted : l.Pairwise (fun a b => a.offset < b.offset)) :
    coveredV (coalesce l) = coveredV l ∧ coveredB (coalesce l) = coveredB l ∧
      totalV (coalesce l) = totalV l ∧ totalB (coalesce l) = totalB l := by
  refine ⟨coalesce_coveredV l, coalesce_coveredB l, ?_, ?_⟩
  · rw [← coveredV_length, ← coveredV_length, coalesce_coveredV l]
  · rw [← coveredB_length, ← coveredB_length, coalesce_coveredB l]

/-- Witness for C1 at the concrete ascending input `[exR1, exR2]`. -/
theorem coalesce_coverage_preservation_witness :
    ([exR1, exR2] : List (RegionDescriptor Nat)).Pairwise (fun a b => a.offset < b.offset) ∧
      (coveredV (coalesce [exR1, exR2]) = coveredV [exR1, exR2] ∧
        coveredB (coalesce [exR1, exR2]) = coveredB [exR1, exR2] ∧
        totalV (coalesce [exR1, exR2]) = totalV [exR1, exR2] ∧
        totalB (coalesce [exR1, exR2]) = totalB [exR1, exR2]) :=
  ⟨by decide, coalesce_coverage_preservation [exR1, exR2] (by decide)⟩

/-- C7: with the `coalesce` option off, the run stream handed to the
row-emission loop is the input descriptor stream itself, unchanged
(`coalesce = lambda x: x`). -/
theorem passthrough_identity {α : Type} [DecidableEq α]
    (l : List (RegionDescriptor α)) :
    selectRuns false l = l := rfl

/-- C8: coalescing the two contiguous same-layer descriptors
`(0, 0x1000, 0, 0x1000, L1)` and `(0x1000, 0x1000, 0x1000, 0x1000, L1)`
yields the single run `(0, 0x2000, 0, 0x2000, L1)`: starting offsets from
the first member, sizes summed. -/
theorem merge_correctness_example :
    coalesce ([⟨0, 0x1000, 0, 0x1000, 1⟩, ⟨0x1000, 0x1000, 0x1000, 0x1000, 1⟩] :
        List (RegionDescriptor Nat)) =
      [⟨0, 0x2000, 0, 0x2000, 1⟩] := by
  decide

/-- C9: two consecutive descriptors that are virtually contiguous and
backing-contiguous but carry different layers are not merged: `coalesce`
returns both descriptors unchanged, as two runs. -/
theorem merge_break_on_layer_change {α : Type} [DecidableEq α]
    (r1 r2 : RegionDescriptor α)
    (hv : r1.offset + r1.size = r2.offset)
    (hb : r1.mapped_offset + r1.mapped_size = r2.mapped_offset)
    (hl : r1.map_layer ≠ r2.map_layer) :
    coalesce [r1, r2] = [r1, r2] := by
  simp [coalesce, coalesceAux, hv, hb, hl]

/-! Helper lemmas about `runLoop`. -/

theorem runLoop_append {α : Type} (d : Bool) (read : Nat → Nat → Option (List Nat))
    (n f : String) (l1 l2 : List (RegionDescriptor α)) :
    ∀ off, runLoop d read n f off (l1 ++ l2) =
      ⟨(runLoop d read n f off l1).rows ++ (runLoop d read n f (off + sumMapped l1) l2).rows,
        (runLoop d read n f off l1).data ++ (runLoop d read n f (off + sumMapped l1) l2).data,
        (runLoop d read n f off l1).log ++ (runLoop d read n f (off + sumMapped l1) l2).log⟩ := by
  induction l1 with
  | nil => intro off; simp [runLoop, sumMapped]
  | cons r rest ih =>
    intro off
    simp [runLoop, ih (off + r.mapped_size), sumMapped, Nat.add_assoc]

theorem runLoop_rows_getElem {α : Type} (d : Bool) (read : Nat → Nat → Option (List Nat))
    (n f : String) (l : List (RegionDescriptor α)) :
    ∀ (off i : Nat) (row : OutputRow), (runLoop d read n f off l).rows[i]? = some row →
      ∃ r, l[i]? = some r ∧
        row = OutputRow.mk r.offset r.mapped_offset r.mapped_size (off + sumMapped (l.take i))
          (dumpStep d read n f r).1 := by
  induction l with
  | nil => intro off i row h; simp [runLoop] at h
  | cons r rest ih =>
    intro off i row h
    cases i with
    | zero =>
      refine ⟨r, by simp, ?_⟩
      simp [runLoop] at h
      simp [← h, sumMapped]
    | succ i =>
      simp only [runLoop, List.getElem?_cons_succ] at h
      obtain ⟨r1, hr1, hrow⟩ := ih (off + r.mapped_size) i row h
      refine ⟨r1, by simpa using hr1, ?_⟩
      rw [hrow]
      simp [sumMapped, Nat.add_assoc]

theorem runLoop_data_length {α : Type} (read : Nat → Nat → Option (List Nat))
    (n f : String) (l : List (RegionDescriptor α)) :
    ∀ off, (∀ r ∈ l, (read r.offset r.size).map List.length = some r.mapped_size) →
      (runLoop true read n f off l).data.length = sumMapped l := by
  induction l with
  | nil => intro off _; simp [runLoop, sumMapped]
  | cons r rest ih =>
    intro off hok
    have h1 := hok r (by simp)
    obtain ⟨dt, hdt, hlen⟩ : ∃ dt, read r.offset r.size = some dt ∧ dt.length = r.mapped_size := by
      cases hread : read r.offset r.size with
      | none => simp [hread] at h1
      | some dt => exact ⟨dt, rfl, by simpa [hread] using h1⟩
    have htail := ih (off + r.mapped_size) (fun x hx => hok x (by simp [hx]))
    simp [runLoop, dumpStep, hdt, sumMapped, hlen]
    simpa [sumMapped] using htail

theorem runLoop_false_sinkless {α : Type} (read : Nat → Nat → Option (List Nat))
    (n f : String) (l : List (RegionDescriptor α)) :
    ∀ off, (runLoop false read n f off l).data = [] ∧
      (runLoop false read n f off l).log = [] ∧
      ∀ row ∈ (runLoop false read n f off l).rows, row.file_output = "Disabled" := by
  induction l with
  | nil => intro off; simp [runLoop]
  | cons r rest ih =>
    intro off
    obtain ⟨hd, hl, hr⟩ := ih (off + r.mapped_size)
    refine ⟨by simp [runLoop, dumpStep, hd], by simp [runLoop, dumpStep, hl], ?_⟩
    intro row hrow
    simp [runLoop, dumpStep] at hrow
    rcases hrow with hrow | hrow
    · rw [hrow]
    · exact hr row hrow

theorem runLoop_false_read_irrelevant {α : Type}
    (read1 read2 : Nat → Nat → Option (List Nat)) (n f : String)
    (l : List (RegionDescriptor α)) :
    ∀ off, runLoop false read1 n f off l = runLoop false read2 n f off l := by
  induction l with
  | nil => intro off; rfl
  | cons r rest ih => intro off; simp [runLoop, dumpStep, ih (off + r.mapped_size)]

/-- Witness for C9 at concrete contiguous descriptors on layers 1 and 2. -/
theorem merge_break_on_layer_change_witness :
    (⟨0, 16, 0, 16, 1⟩ : RegionDescriptor Nat).offset + (⟨0, 16, 0, 16, 1⟩ : RegionDescriptor Nat).size =
        (⟨16, 16, 16, 16, 2⟩ : RegionDescriptor Nat).offset ∧
      coalesce [(⟨0, 16, 0, 16, 1⟩ : RegionDescriptor Nat), ⟨16, 16, 16, 16, 2⟩] =
        [⟨0, 16, 0, 16, 1⟩, ⟨16, 16, 16, 16, 2⟩] :=
  ⟨by decide,
    merge_break_on_layer_change ⟨0, 16, 0, 16, 1⟩ ⟨16, 16, 16, 16, 2⟩
      (by decide) (by decide) (by decide)⟩

/-- C2: across the rows emitted for one process, `file_offset` starts at 0,
is non-decreasing, and each row's `file_offset` exceeds the previous row's
by exactly the previous row's mapped (backing) size, whatever the dump
setting and whatever each read returned. -/
theorem file_offset_monotonicity {α : Type} [DecidableEq α] (c d : Bool)
    (p : ProcInput α) :
    (∀ a : OutputRow, (processOne c d p).rows[0]? = some a → a.file_offset = 0) ∧
      (∀ (i : Nat) (a b : OutputRow), (processOne c d p).rows[i]? = some a →
        (processOne c d p).rows[i + 1]? = some b →
        b.file_offset = a.file_offset + a.mapped_size ∧ a.file_offset ≤ b.file_offset) := by
  cases hp : p.add_process_layer with
  | error e =>
    constructor
    · intro a ha
      simp [processOne, hp] at ha
    · intro i a b ha hb
      simp [processOne, hp] at ha
  | ok layer =>
    have hrows : (processOne c d p).rows =
        (runLoop d layer.read layer.name ("pid." ++ toString p.pid ++ ".dmp") 0
          (selectRuns c layer.mapping)).rows := by
      simp [processOne, hp]
    constructor
    · intro a ha
      rw [hrows] at ha
      obtain ⟨r, _, hrow⟩ := runLoop_rows_getElem d layer.read layer.name _ _ 0 0 a ha
      rw [hrow]
      simp [sumMapped]
    · intro i a b ha hb
      rw [hrows] at ha hb
      obtain ⟨r, hr, hrowa⟩ := runLoop_rows_getElem d layer.read layer.name _ _ 0 i a ha
      obtain ⟨r1, hr1, hrowb⟩ := runLoop_rows_getElem d layer.read layer.name _ _ 0 (i + 1) b hb
      have htake : (selectRuns c layer.mapping).take (i + 1) =
          (selectRuns c layer.mapping).take i ++ [r] := by
        rw [List.take_succ, hr]
        rfl
      have hsum : sumMapped ((selectRuns c layer.mapping).take (i + 1)) =
          sumMapped ((selectRuns c layer.mapping).take i) + r.mapped_size := by
        rw [htake]
        simp [sumMapped]
      constructor
      · rw [hrowa, hrowb]
        simp [hsum, Nat.add_assoc]
      · rw [hrowa, hrowb]
        simp [hsum, Nat.add_assoc]

/-- Witness for C2: dumping process 1 (regions `exR1, exR2`, reads
succeeding) yields row 0 at file offset 0 and row 1 at file offset
`0 + exR1.mapped_size`. -/
theorem file_offset_monotonicity_witness :
    ((⟨0, 0, 1, 0, "pid.1.dmp"⟩ : OutputRow).file_offset = 0) ∧
      ((⟨1, 1, 1, 1, "pid.1.dmp"⟩ : OutputRow).file_offset =
          (⟨0, 0, 1, 0, "pid.1.dmp"⟩ : OutputRow).file_offset +
            (⟨0, 0, 1, 0, "pid.1.dmp"⟩ : OutputRow).mapped_size ∧
        (⟨0, 0, 1, 0, "pid.1.dmp"⟩ : OutputRow).file_offset ≤
          (⟨1, 1, 1, 1, "pid.1.dmp"⟩ : OutputRow).file_offset) :=
  ⟨(file_offset_monotonicity false true (exProcOk 1)).1 _ (by decide),
    (file_offset_monotonicity false true (exProcOk 1)).2 0 _ _ (by decide) (by decide)⟩

/-- C3: in a batch, a process whose layer resolution raises contributes
zero rows, one debug log line, and the rows of the other processes are
emitted unchanged in their relative order; for three processes with the
second failing, the output rows are exactly process 1's rows followed by
process 3's. -/
theorem fault_isolation {α : Type} [DecidableEq α] (c d : Bool)
    (p1 p2 p3 : ProcInput α) (e : InvalidAddressException)
    (h : p2.add_process_layer = .error e) :
    (generator c d [p1, p2, p3]).rows =
        (processOne c d p1).rows ++ (processOne c d p3).rows ∧
      (processOne c d p2).rows = [] ∧
      debugInvalidProcess p2.pid e ∈ (generator c d [p1, p2, p3]).log := by
  refine ⟨?_, by simp [processOne, h], ?_⟩
  · simp [generator, processOne, h]
  · simp [generator, processOne, h]

/-- Witness for C3 at a concrete 3-process batch where process 2's layer
resolution raises `InvalidAddressException 291 "lay2"`. -/
theorem fault_isolation_witness :
    (generator true true [exProcOk 1, exProcBad, exProcOk 3]).rows =
        (processOne true true (exProcOk 1)).rows ++ (processOne true true (exProcOk 3)).rows ∧
      (processOne true true exProcBad).rows = [] ∧
      debugInvalidProcess exProcBad.pid ⟨291, "lay2"⟩ ∈
        (generator true true [exProcOk 1, exProcBad, exProcOk 3]).log :=
  fault_isolation true true (exProcOk 1) exProcBad (exProcOk 3) ⟨291, "lay2"⟩ rfl

/-- C4: with dump on, a run whose padded read raises contributes no bytes
to the file, still yields its row with the error status at the correct
file offset, logs one debug line, and all runs after it in the same
process are still processed and emitted. -/
theorem read_failure_isolation {α : Type} (read : Nat → Nat → Option (List Nat))
    (n f : String) (off : Nat) (l1 l2 : List (RegionDescriptor α))
    (r : RegionDescriptor α) (h : read r.offset r.size = none) :
    (runLoop true read n f off (l1 ++ r :: l2)).rows =
        (runLoop true read n f off l1).rows ++
          OutputRow.mk r.offset r.mapped_offset r.mapped_size (off + sumMapped l1)
              "Error outputting to file" ::
            (runLoop true read n f (off + sumMapped l1 + r.mapped_size) l2).rows ∧
      (runLoop true read n f off (l1 ++ r :: l2)).data =
        (runLoop true read n f off l1).data ++
          (runLoop true read n f (off + sumMapped l1 + r.mapped_size) l2).data ∧
      (runLoop true read n f off (l1 ++ r :: l2)).log =
        (runLoop true read n f off l1).log ++
          debugWriteFailure n r.offset f ::
            (runLoop true read n f (off + sumMapped l1 + r.mapped_size) l2).log := by
  rw [runLoop_append true read n f l1 (r :: l2) off]
  refine ⟨?_, ?_, ?_⟩ <;> simp [runLoop, dumpStep, h]

/-- Witness for C4: the read oracle failing at offset 0 on the run `exR1`
placed between an empty prefix and the run `exR2`. -/
theorem read_failure_isolation_witness :
    (runLoop true exReadFail "lay" "f" 0
          (([] : List (RegionDescriptor Nat)) ++ exR1 :: [exR2])).rows =
        (runLoop true exReadFail "lay" "f" 0 ([] : List (RegionDescriptor Nat))).rows ++
          OutputRow.mk exR1.offset exR1.mapped_offset exR1.mapped_size
              (0 + sumMapped ([] : List (RegionDescriptor Nat)))
              "Error outputting to file" ::
            (runLoop true exReadFail "lay" "f"
              (0 + sumMapped ([] : List (RegionDescriptor Nat)) + exR1.mapped_size)
              [exR2]).rows ∧
      (runLoop true exReadFail "lay" "f" 0
          (([] : List (RegionDescriptor Nat)) ++ exR1 :: [exR2])).data =
        (runLoop true exReadFail "lay" "f" 0 ([] : List (RegionDescriptor Nat))).data ++
          (runLoop true exReadFail "lay" "f"
            (0 + sumMapped ([] : List (RegionDescriptor Nat)) + exR1.mapped_size)
            [exR2]).data ∧
      (runLoop true exReadFail "lay" "f" 0
          (([] : List (RegionDescriptor Nat)) ++ exR1 :: [exR2])).log =
        (runLoop true exReadFail "lay" "f" 0 ([] : List (RegionDescriptor Nat))).log ++
          debugWriteFailure "lay" exR1.offset "f" ::
            (runLoop true exReadFail "lay" "f"
              (0 + sumMapped ([] : List (RegionDescriptor Nat)) + exR1.mapped_size)
              [exR2]).log :=
  read_failure_isolation exReadFail "lay" "f" 0 [] [exR2] exR1 rfl

/-- C5 counterexample: dumping `[exR1, exR2]` with the read failing on
`exR1`, the second emitted row reports file offset 1 while only 0 bytes
were appended to the stream before its bytes — writes are sequential
appends, so a failed read leaves no void and later bytes land at the
failed run's file position. -/
theorem file_offset_bytes_counterexample :
    ((runLoop true exReadFail "lay" "f" 0 [exR1, exR2]).rows[1]?).map OutputRow.file_offset ≠
      some ((runLoop true exReadFail "lay" "f" 0 ([exR1, exR2].take 1)).data.length) := by
  decide

/-- C5 amended: a row's `file_offset` equals the number of bytes appended
to the stream before that row's bytes provided every earlier run's read
succeeded and returned exactly its mapped size in bytes; without that
proviso `file_offset` still advances by mapped sizes, but a failed read
appends nothing, so later bytes land at the failed run's file position. -/
theorem file_offset_counts_written_bytes {α : Type}
    (read : Nat → Nat → Option (List Nat)) (n f : String)
    (runs : List (RegionDescriptor α)) (i : Nat) (row : OutputRow)
    (hrow : (runLoop true read n f 0 runs).rows[i]? = some row)
    (hok : ∀ r ∈ runs.take i, (read r.offset r.size).map List.length = some r.mapped_size) :
    row.file_offset = (runLoop true read n f 0 (runs.take i)).data.length := by
  obtain ⟨r, _, hr⟩ := runLoop_rows_getElem true read n f runs 0 i row hrow
  rw [hr, runLoop_data_length read n f (runs.take i) 0 hok]
  simp

/-- Witness for C5 amended: both reads succeed with exactly the mapped
size, so row 1's file offset 1 equals the single byte written before
it. -/
theorem file_offset_counts_written_bytes_witness :
    (runLoop true exReadOk "lay" "f" 0 [exR1, exR2]).rows[1]? =
        some (OutputRow.mk 1 1 1 1 "f") ∧
      (OutputRow.mk 1 1 1 1 "f").file_offset =
        (runLoop true exReadOk "lay" "f" 0 ([exR1, exR2].take 1)).data.length :=
  ⟨by decide,
    file_offset_counts_written_bytes exReadOk "lay" "f" [exR1, exR2] 1
      (OutputRow.mk 1 1 1 1 "f") (by decide) (by decide)⟩

/-- C6: with dump off, no file is ever created for a process, every row's
status is the fixed `"Disabled"` marker, and the read oracle is never
consulted (the output is the same whatever it would return), so no write
is ever attempted. -/
theorem dump_disabled_conservation {α : Type} [DecidableEq α] (c : Bool)
    (p : ProcInput α) :
    (processOne c false p).files = [] ∧
      (∀ row ∈ (processOne c false p).rows, row.file_output = "Disabled") ∧
      (∀ (pid : Nat) (nm : String) (mp : List (RegionDescriptor α))
          (read1 read2 : Nat → Nat → Option (List Nat)),
        processOne c false ⟨pid, .ok ⟨nm, mp, read1⟩⟩ =
          processOne c false ⟨pid, .ok ⟨nm, mp, read2⟩⟩) := by
  refine ⟨?_, ?_, ?_⟩
  · cases hp : p.add_process_layer <;> simp [processOne, hp]
  · cases hp : p.add_process_layer with
    | error e => simp [processOne, hp]
    | ok layer =>
      intro row hrow
      simp only [processOne, hp] at hrow
      exact (runLoop_false_sinkless layer.read layer.name _ _ 0).2.2 row hrow
  · intro pid nm mp read1 read2
    simp [processOne, runLoop_false_read_irrelevant read1 read2 nm
      ("pid." ++ toString pid ++ ".dmp") (selectRuns c mp) 0]

/-- Witness for C6: row 0 of process 1 processed with dump off carries the
`"Disabled"` status. -/
theorem dump_disabled_conservation_witness :
    (processOne false false (exProcOk 1)).files = [] ∧
      (OutputRow.mk 0 0 1 0 "Disabled").file_output = "Disabled" :=
  ⟨(dump_disabled_conservation false (exProcOk 1)).1,
    (dump_disabled_conservation false (exProcOk 1)).2.1 (OutputRow.mk 0 0 1 0 "Disabled")
      (by decide)⟩


theorem exceptOkBind {ε β γ : Type} (a : β) (f : β → Except ε γ) :
    (Bind.bind (Except.ok a) f : Except ε γ) = f a := rfl

theorem pyYieldStash_pyOf {α : Type} (s : RegionDescriptor α) :
    pyYieldStash (pyOf s) = .ok s := rfl

theorem pyCond_pyOf {α : Type} [DecidableEq α] (s r : RegionDescriptor α) :
    pyCond (pyOf s) r = .ok (decide (s.offset + s.size ≠ r.offset ∨
      s.mapped_offset + s.mapped_size ≠ r.mapped_offset ∨ s.map_layer ≠ r.map_layer)) := by
  by_cases h1 : s.offset + s.size ≠ r.offset
  · simp [pyCond, pyOf, h1]
  · by_cases h2 : s.mapped_offset + s.mapped_size ≠ r.mapped_offset
    · simp [pyCond, pyOf, h1, h2]
    · by_cases h3 : s.map_layer ≠ r.map_layer
      · simp [pyCond, pyOf, h1, h2, h3]
      · simp [pyCond, pyOf, h1, h2, h3]

theorem coalesceAux_cons_break {α : Type} [DecidableEq α]
    (s r : RegionDescriptor α) (rest : List (RegionDescriptor α))
    (hb : s.offset + s.size ≠ r.offset ∨ s.mapped_offset + s.mapped_size ≠ r.mapped_offset ∨
      s.map_layer ≠ r.map_layer) :
    coalesceAux (some s) (r :: rest) = s :: coalesceAux (some r) rest := by
  simp only [coalesceAux]
  rw [if_pos hb]

theorem coalesceAux_cons_extend {α : Type} [DecidableEq α]
    (s r : RegionDescriptor α) (rest : List (RegionDescriptor α))
    (hcnd : ¬(s.offset + s.size ≠ r.offset ∨ s.mapped_offset + s.mapped_size ≠ r.mapped_offset ∨
      s.map_layer ≠ r.map_layer)) :
    coalesceAux (some s) (r :: rest) =
      coalesceAux (some { s with size := s.size + r.size, mapped_size := s.mapped_size + r.mapped_size }) rest := by
  simp only [coalesceAux]
  rw [if_neg hcnd]

theorem pyCoalesceAux_ok {α : Type} [DecidableEq α] (l : List (RegionDescriptor α)) :
    ∀ st : Option (RegionDescriptor α),
      pyCoalesceAux (pyStash st) l = .ok (coalesceAux st l) := by
  induction l with
  | nil =>
    intro st
    cases st with
    | none => rfl
    | some s => rfl
  | cons r rest ih =>
    intro st
    cases st with
    | none =>
      have h := ih (some r)
      rw [show pyStash (some r) = pyOf r from rfl] at h
      show Bind.bind (pyCoalesceAux (pyOf r) rest)
          (fun x => pure (([] : List (RegionDescriptor α)) ++ x)) =
        Except.ok (coalesceAux (some r) rest)
      rw [h, exceptOkBind]
      rfl
    | some s =>
      by_cases hb : s.offset + s.size ≠ r.offset ∨
          s.mapped_offset + s.mapped_size ≠ r.mapped_offset ∨ s.map_layer ≠ r.map_layer
      · have h := ih (some r)
        rw [show pyStash (some r) = pyOf r from rfl] at h
        rw [show pyStash (some s) = pyOf s from rfl]
        simp only [pyCoalesceAux]
        rw [pyCond_pyOf, decide_eq_true hb]
        show Bind.bind (pyCoalesceAux (pyOf r) rest) (fun x => pure ([s] ++ x)) =
          Except.ok (coalesceAux (some s) (r :: rest))
        rw [h, exceptOkBind, coalesceAux_cons_break s r rest hb]
        rfl
      · have h := ih (some { s with size := s.size + r.size, mapped_size := s.mapped_size + r.mapped_size })
        rw [show pyStash (some { s with size := s.size + r.size, mapped_size := s.mapped_size + r.mapped_size }) = pyOf { s with size := s.size + r.size, mapped_size := s.mapped_size + r.mapped_size } from rfl] at h
        rw [show pyStash (some s) = pyOf s from rfl]
        simp only [pyCoalesceAux]
        rw [pyCond_pyOf, decide_eq_false hb]
        show pyCoalesceAux (pyOf { s with size := s.size + r.size, mapped_size := s.mapped_size + r.mapped_size }) rest =
          Except.ok (coalesceAux (some s) (r :: rest))
        rw [h, coalesceAux_cons_extend s r rest hb]

/-- C10: on every finite input the raw evaluation of `Memmap.coalesce`
(modelled by `pyCoalesce`, which raises on reading the never-initialised
name `stashed_map_layer` or on `None` arithmetic) completes without any
name-resolution or type error and returns exactly the runs of the clean
transform `coalesce`: the unassigned-name disjunct is only reached after
the new-run branch has assigned `stashed_map_layer`, so the layer-equality
check is enforced from the second descriptor onward exactly as the
contiguity contract requires. -/
theorem coalesce_raw_evaluation_total {α : Type} [DecidableEq α]
    (l : List (RegionDescriptor α)) :
    pyCoalesce l = .ok (coalesce l) :=
  pyCoalesceAux_ok l none

end Memmap
